import Mathlib

/-!
# Verification of the `snecc` snake-game server

A shallow embedding of the game model and wire codec of the `snecc`
repository (`snake-server/src/game_serv.rs`, `snake-server/src/protocol.rs`,
`snake-client/src/protocol.rs`), together with proofs about the embedded
operations.

Modelling conventions:
* The singly linked `SnakeNode` chain is embedded as the head coordinate
  plus the list of its successors (`Snake.head`, `Snake.rest`), so the
  chain is `Snake.head :: Snake.rest`, mirroring the fact that the Rust
  struct stores the head node inline (a chain is never empty).
* `i16` coordinates are embedded as `Int` (gameplay coordinates stay far
  from the `i16` range in every reachable state); `u8` counters such as
  `stomach` are embedded as `Nat` with an explicit `% 256` where the code
  performs `u8` arithmetic that can wrap (`stomach += food`).
* Code that can `panic!` (`unwrap` on a missing node, integer division by
  zero, an out-of-range food id) is embedded with `Option`: `none` is a
  panic.
* The `rand` samples drawn inside `Game::update_snake` and `Food::reset`
  are passed in explicitly as a `Rng` record of the sampled values; the
  range guarantee of `rand::distributions::Uniform::from(a..b)` (the
  sample lies in `[a, b)`) becomes a hypothesis of the theorems.
-/

namespace Snecc

/-- A coordinate pair `(x, y)`, the data of a `SnakeNode` (`i16` fields). -/
abbrev Pos := Int × Int

/-- Embeds `Move` from `game_serv.rs`. -/
inductive Move where
  | Up
  | Down
  | Left
  | Right
deriving DecidableEq, Repr

/-- Embeds `FoodType` from `game_serv.rs`. -/
inductive FoodType where
  | Apple
  | Mango
deriving DecidableEq, Repr

/-- Embeds `food_id_to_type` from `game_serv.rs`; `none` models the
`panic!("Unknown food type")` arm. -/
def food_id_to_type (food_type : Nat) : Option FoodType :=
  match food_type with
  | 1 => some FoodType.Apple
  | 2 => some FoodType.Mango
  | _ => none

/-- Embeds `TileType` from `game_serv.rs`. -/
inductive TileType where
  | FoodTile (t : FoodType)
  | SnakeTile (id : Nat)
  | Wall
  | Nothing
deriving DecidableEq, Repr

/-- Embeds `Snake` from `game_serv.rs`.  The node chain of the Rust struct (field
`head : SnakeNode`, each node owning an `Option<Box<SnakeNode>>` successor)
is embedded as the head's coordinate plus the list of the successors'
coordinates, in order; the full chain is `head :: rest`. -/
structure Snake where
  id : Nat
  color : Nat × Nat × Nat
  head : Pos
  rest : List Pos
  direction : Move
  moving : Move
  has_lost : Bool
  stomach : Nat
  boost : Bool
deriving DecidableEq, Repr

/-- Embeds `Food` from `game_serv.rs`. -/
structure Food where
  x : Int
  y : Int
  food_type : FoodType
deriving DecidableEq, Repr

/-- Embeds `Game` from `game_serv.rs` (`dimensions : u16` as `Nat`). -/
structure Game where
  dimensions : Nat
  food : List Food
  waiting : Bool
  period : Float
  progress : Float
  players : List Snake

/-- The full node chain of a snake, head first (`SnakeNode` linked list). -/
def Snake.chain (s : Snake) : List Pos :=
  s.head :: s.rest

/-- Embeds `SnakeNode::len` on the chain of a snake (number of nodes). -/
def Snake.len (s : Snake) : Nat :=
  s.chain.length

/-- Embeds `Snake::new` from `game_serv.rs`: a head node and a tail node at the
same coordinate, `stomach` starts at `10`. -/
def Snake.new (id : Nat) (color : Nat × Nat × Nat) (x y : Int)
    (initial_direction initial_moving : Move) : Snake :=
  { id := id
    color := color
    head := (x, y)
    rest := [(x, y)]
    direction := initial_direction
    moving := initial_moving
    has_lost := false
    stomach := 10
    boost := false }

/-- Embeds `Snake::change_intent` from `game_serv.rs`. -/
def Snake.change_intent (s : Snake) (player_move : Move) : Snake :=
  match player_move with
  | Move.Up => if s.direction ≠ Move.Down then { s with moving := Move.Up } else s
  | Move.Down => if s.direction ≠ Move.Up then { s with moving := Move.Down } else s
  | Move.Left => if s.direction ≠ Move.Right then { s with moving := Move.Left } else s
  | Move.Right => if s.direction ≠ Move.Left then { s with moving := Move.Right } else s

/-- The opposite of a movement direction (spec vocabulary: "the exact
opposite of the current committed direction"). -/
def Move.opposite : Move → Move
  | Move.Up => Move.Down
  | Move.Down => Move.Up
  | Move.Left => Move.Right
  | Move.Right => Move.Left

/-- C9: Direction-reversal rejection: `change_intent m` leaves `moving`
unchanged when `m` is the exact opposite of the committed `direction` and
sets `moving` to `m` in every other case; `direction` (and every other
field) is never modified. -/
theorem change_intent_spec (s : Snake) (m : Move) :
    s.change_intent m =
      { s with moving := if m = s.direction.opposite then s.moving else m } := by
  cases m <;> cases h : s.direction <;>
    simp [Snake.change_intent, Move.opposite, h] <;> rw [← h]

/-- C10: `Snake::new` returns a snake whose chain has exactly two nodes,
both at `(x, y)`, with `has_lost = false`, `boost = false` and
`stomach = 10`. -/
theorem new_snake_spec (id : Nat) (color : Nat × Nat × Nat) (x y : Int)
    (d m : Move) :
    (Snake.new id color x y d m).chain = [(x, y), (x, y)] ∧
    (Snake.new id color x y d m).len = 2 ∧
    (Snake.new id color x y d m).has_lost = false ∧
    (Snake.new id color x y d m).boost = false ∧
    (Snake.new id color x y d m).stomach = 10 := by
  refine ⟨rfl, rfl, rfl, rfl, rfl⟩

/-- Embeds `Snake::insert_node` composed with the node construction of
`Snake::add_snake_node`: hang a fresh node carrying the head's current
coordinate between the head and its successor chain. -/
def Snake.insert_node (s : Snake) : Snake :=
  { s with rest := s.head :: s.rest }

/-- Embeds `Snake::add_snake_node` from `game_serv.rs`: on a turn
(`moving != direction`) duplicate the head's coordinate right behind it. -/
def Snake.add_snake_node (s : Snake) : Snake :=
  if s.moving ≠ s.direction then s.insert_node else s

/-- Shift a coordinate one unit along a movement direction (the
`head.y -= 1` / `head.y += 1` / `head.x += 1` / `head.x -= 1` arms of
`Snake::update`). -/
def Move.shift : Move → Pos → Pos
  | Move.Up, (x, y) => (x, y - 1)
  | Move.Down, (x, y) => (x, y + 1)
  | Move.Left, (x, y) => (x - 1, y)
  | Move.Right, (x, y) => (x + 1, y)

/-- The head-movement phase of `Snake::update` (its `match self.moving`
block): `add_snake_node`, then shift the head, then commit `direction`. -/
def Snake.update_head (s : Snake) : Snake :=
  match s.moving with
  | Move.Up =>
      let s1 := s.add_snake_node
      { s1 with head := (s1.head.1, s1.head.2 - 1), direction := Move.Up }
  | Move.Down =>
      let s1 := s.add_snake_node
      { s1 with head := (s1.head.1, s1.head.2 + 1), direction := Move.Down }
  | Move.Right =>
      let s1 := s.add_snake_node
      { s1 with head := (s1.head.1 + 1, s1.head.2), direction := Move.Right }
  | Move.Left =>
      let s1 := s.add_snake_node
      { s1 with head := (s1.head.1 - 1, s1.head.2), direction := Move.Left }

/-- Embeds `Snake::get_position_of_node_before_tail` from `game_serv.rs` on a
chain: the coordinate of the second-to-last node.  `none` models the
`unwrap` panic on a chain with fewer than two nodes. -/
def get_position_of_node_before_tail : List Pos → Option Pos
  | [a, _] => some a
  | _ :: b :: c :: t => get_position_of_node_before_tail (b :: c :: t)
  | _ => none

/-- Embeds `Snake::back_tail` from `game_serv.rs` on a chain: cut the last node
off (a one-node chain is left as is: the loop body never runs and
`next_node` is already `None`). -/
def back_tail (l : List Pos) : List Pos :=
  match l with
  | [] => []
  | [a] => [a]
  | _ :: _ :: _ => l.dropLast

/-- Overwrite the last node of a chain (the tail mutation
`tail.x += ...` / `tail.y += ...` through `get_tail`'s mutable borrow). -/
def setLast (l : List Pos) (v : Pos) : List Pos :=
  l.dropLast ++ [v]

/-- Embeds `d / d.abs()`, with Rust's truncating `i16` division (`Int.div`).  For
`d ≠ 0` this is the sign of `d`; for `d = 0` the Rust expression panics
(division by zero), which the caller models as `none` before reaching
this. -/
def sgn (d : Int) : Int :=
  Int.tdiv d (d.natAbs : Int)

/-- The tail-movement phase of `Snake::update` (its `else` block, acting
on the whole chain): drop the tail when it coincides with the pre-tail
node, then pull the tail one unit toward the pre-tail node.  `none` models
the panics (`unwrap` on a short chain, division by zero when the tail
still coincides with the pre-tail node after `back_tail`). -/
def tailStep (l : List Pos) : Option (List Pos) :=
  match get_position_of_node_before_tail l, l.getLast? with
  | some p, some t =>
      let l1 := if t = p then back_tail l else l
      match get_position_of_node_before_tail l1, l1.getLast? with
      | some p2, some t2 =>
          if t2.1 = p2.1 then
            if t2.2 = p2.2 then none
            else some (setLast l1 (t2.1, t2.2 + sgn (p2.2 - t2.2)))
          else if t2.2 = p2.2 then
            some (setLast l1 (t2.1 + sgn (p2.1 - t2.1), t2.2))
          else some l1
      | _, _ => none
  | _, _ => none

/-- Embeds `Snake::update` from `game_serv.rs`: nothing on a lost snake;
otherwise the head phase, then either digest one stomach unit or run the
tail phase.  `none` models a panic inside the tail phase. -/
def Snake.update (s : Snake) : Option Snake :=
  if s.has_lost then some s
  else
    let s1 := s.update_head
    if 0 < s1.stomach then some { s1 with stomach := s1.stomach - 1 }
    else
      match tailStep s1.chain with
      | some (h :: r) => some { s1 with head := h, rest := r }
      | _ => none

theorem get_position_of_node_before_tail_eq (l : List Pos) :
    get_position_of_node_before_tail l =
      if l.length ≤ 1 then none else l.dropLast.getLast? := by
  induction l with
  | nil => rfl
  | cons a l ih =>
    cases l with
    | nil => rfl
    | cons b t =>
      cases t with
      | nil => rfl
      | cons c t' =>
        rw [show get_position_of_node_before_tail (a :: b :: c :: t') =
              get_position_of_node_before_tail (b :: c :: t') from rfl, ih]
        simp

theorem get_position_of_node_before_tail_isSome {l : List Pos} {p : Pos}
    (h : get_position_of_node_before_tail l = some p) : 2 ≤ l.length := by
  rw [get_position_of_node_before_tail_eq] at h
  by_contra hlen
  rw [if_pos (by omega)] at h
  exact Option.noConfusion h

/-- The tail phase (`tailStep`) never touches the head node: a successful tail phase on
`h :: r` returns a chain that still starts with `h`. -/
theorem tailStep_head {h : Pos} {r : List Pos} {l' : List Pos}
    (hstep : tailStep (h :: r) = some l') : ∃ r', l' = h :: r' := by
  unfold tailStep at hstep
  cases hp : get_position_of_node_before_tail (h :: r) with
  | none => rw [hp] at hstep; exact absurd hstep (by simp)
  | some p =>
    have hr : r ≠ [] := by
      have := get_position_of_node_before_tail_isSome hp
      cases r with
      | nil => simp at this
      | cons x xs => exact List.cons_ne_nil _ _
    cases ht : (h :: r).getLast? with
    | none => rw [hp, ht] at hstep; exact absurd hstep (by simp)
    | some t =>
      rw [hp, ht] at hstep
      simp only at hstep
      set l1 := if t = p then back_tail (h :: r) else (h :: r) with hl1
      have hl1head : ∃ r1, l1 = h :: r1 := by
        rw [hl1]
        by_cases htp : t = p
        · rw [if_pos htp]
          cases r with
          | nil => exact absurd rfl hr
          | cons b t' =>
            refine ⟨(b :: t').dropLast, ?_⟩
            simp [back_tail]


        · exact ⟨r, if_neg htp ▸ rfl⟩
      obtain ⟨r1, hr1⟩ := hl1head
      cases hp2 : get_position_of_node_before_tail l1 with
      | none => rw [hp2] at hstep; exact absurd hstep (by simp)
      | some p2 =>
        have hr1ne : r1 ≠ [] := by
          have := get_position_of_node_before_tail_isSome hp2
          rw [hr1] at this
          cases r1 with
          | nil => simp at this
          | cons x xs => exact List.cons_ne_nil _ _
        cases ht2 : l1.getLast? with
        | none => rw [hp2, ht2] at hstep; exact absurd hstep (by simp)
        | some t2 =>
          rw [hp2, ht2] at hstep
          simp only at hstep
          have hset : ∀ v, setLast l1 v = h :: (setLast r1 v) := by
            intro v
            rw [hr1, setLast, setLast, List.dropLast_cons_of_ne_nil hr1ne]
            simp
          by_cases h1 : t2.1 = p2.1
          · rw [if_pos h1] at hstep
            by_cases h2 : t2.2 = p2.2
            · rw [if_pos h2] at hstep; exact absurd hstep (by simp)
            · rw [if_neg h2] at hstep
              exact ⟨_, by rw [← Option.some_inj.mp hstep, hset]⟩
          · rw [if_neg h1] at hstep
            by_cases h2 : t2.2 = p2.2
            · rw [if_pos h2] at hstep
              exact ⟨_, by rw [← Option.some_inj.mp hstep, hset]⟩
            · rw [if_neg h2] at hstep
              exact ⟨r1, by rw [← Option.some_inj.mp hstep, hr1]⟩

/-- The head phase in one equation: a duplicate of the head's pre-move
coordinate is inserted right behind the head exactly when
`moving ≠ direction`, then the head is shifted one unit along `moving`,
and `direction` becomes `moving`. -/
theorem update_head_eq (s : Snake) :
    s.update_head =
      { s with
        rest := if s.moving = s.direction then s.rest else s.head :: s.rest
        head := s.moving.shift s.head
        direction := s.moving } := by
  cases hm : s.moving <;>
    · simp only [Snake.update_head, Snake.add_snake_node, Snake.insert_node, hm]
      by_cases hd : s.moving = s.direction <;> simp_all [Move.shift]

theorem update_head_stomach (s : Snake) : s.update_head.stomach = s.stomach := by
  rw [update_head_eq]

/-- C1: one call to `Snake::update` on a non-lost snake inserts a new node
immediately behind the head iff `moving ≠ direction`; the inserted node
carries the head's pre-move coordinate (the insertion happens before the
head coordinate changes, which is why the duplicate records the pre-move
position); the head is then shifted one unit along `moving`
(`Up : y-1`, `Down : y+1`, `Left : x-1`, `Right : x+1`), and afterwards
`direction = moving`.  A lost snake is returned entirely unchanged. -/
theorem update_spec (s : Snake) :
    (s.has_lost = true → s.update = some s) ∧
    (s.has_lost = false →
      s.update_head =
        { s with
          rest := if s.moving = s.direction then s.rest else s.head :: s.rest
          head := s.moving.shift s.head
          direction := s.moving } ∧
      ∀ s', s.update = some s' →
        s'.head = s.moving.shift s.head ∧ s'.direction = s.moving) := by
  constructor
  · intro h
    simp [Snake.update, h]
  · intro h
    refine ⟨update_head_eq s, ?_⟩
    intro s' hupd
    rw [Snake.update, if_neg (by simp [h])] at hupd
    by_cases hst : 0 < s.update_head.stomach
    · rw [if_pos hst] at hupd
      have := Option.some_inj.mp hupd
      rw [← this, update_head_eq]
      exact ⟨rfl, rfl⟩
    · rw [if_neg hst] at hupd
      cases hts : tailStep s.update_head.chain with
      | none => rw [hts] at hupd; exact absurd hupd (by simp)
      | some l' =>
        rw [hts] at hupd
        have : s.update_head.chain = s.update_head.head :: s.update_head.rest := rfl
        rw [this] at hts
        obtain ⟨r', hr'⟩ := tailStep_head hts
        subst hr'
        simp only at hupd
        have := Option.some_inj.mp hupd
        rw [← this]
        rw [update_head_eq]
        exact ⟨rfl, rfl⟩

/-- A lost snake (for the C1 witness). -/
def wSnakeLost : Snake :=
  { id := 1, color := (0, 0, 0), head := (5, 5), rest := [(5, 6)]
    direction := Move.Up, moving := Move.Left, has_lost := true
    stomach := 3, boost := false }

/-- A live turning snake (for the C1 witness). -/
def wSnakeTurn : Snake :=
  { id := 1, color := (0, 0, 0), head := (5, 5), rest := [(5, 6)]
    direction := Move.Up, moving := Move.Left, has_lost := false
    stomach := 3, boost := false }

theorem update_spec_witness :
    Snake.update wSnakeLost = some wSnakeLost ∧
    Snake.update_head wSnakeTurn =
      { wSnakeTurn with
        rest := if wSnakeTurn.moving = wSnakeTurn.direction then wSnakeTurn.rest
                else wSnakeTurn.head :: wSnakeTurn.rest
        head := wSnakeTurn.moving.shift wSnakeTurn.head
        direction := wSnakeTurn.moving } ∧
    (Snake.update wSnakeTurn).map Snake.direction = some Move.Left := by
  refine ⟨(update_spec wSnakeLost).1 rfl, ((update_spec wSnakeTurn).2 rfl).1, ?_⟩
  cases hu : Snake.update wSnakeTurn with
  | none => exact absurd hu (by decide)
  | some s' =>
    have := (((update_spec wSnakeTurn).2 rfl).2 s' hu).2
    simp [this, wSnakeTurn]

theorem sgn_eq {d : Int} (h : d ≠ 0) : sgn d = if 0 < d then 1 else -1 := by
  rw [sgn, ← Int.sign_eq_tdiv_abs]
  rcases lt_or_gt_of_ne h with hneg | hpos
  · rw [if_neg (by omega), Int.sign_eq_neg_one_of_neg hneg]
  · rw [if_pos hpos, Int.sign_eq_one_of_pos hpos]

theorem sgn_step {d : Int} (h : d ≠ 0) : (d - sgn d).natAbs = d.natAbs - 1 := by
  rw [sgn_eq h]
  rcases lt_or_gt_of_ne h with hneg | hpos
  · rw [if_neg (by omega)]; omega
  · rw [if_pos hpos]; omega

/-- C2: tail phase of `Snake::update` on a non-lost snake.  With
`stomach > 0` the stomach is decremented and the chain produced by the
head phase is kept untouched, so the node count is unchanged on a tick
without a turn and grows by exactly one on a tick with a turn.  With
`stomach = 0`, the tail node is dropped (`back_tail`) exactly when it
coincides with the pre-tail node, and then the (possibly new) tail moves
exactly one unit toward the (possibly new) pre-tail node along the one
axis on which they differ (the distance on that axis shrinks by one, the
other coordinate is preserved). -/
theorem update_tail_spec (s s' : Snake) (hlost : s.has_lost = false)
    (hupd : s.update = some s') :
    (0 < s.stomach →
      s'.stomach = s.stomach - 1 ∧
      s'.chain = s.update_head.chain ∧
      (s.moving = s.direction → s'.len = s.len) ∧
      (s.moving ≠ s.direction → s'.len = s.len + 1)) ∧
    (s.stomach = 0 →
      ∀ p t, get_position_of_node_before_tail s.update_head.chain = some p →
        s.update_head.chain.getLast? = some t →
        ∃ l1,
          ((t = p → l1 = back_tail s.update_head.chain) ∧
           (t ≠ p → l1 = s.update_head.chain)) ∧
          ∀ p2 t2, get_position_of_node_before_tail l1 = some p2 →
            l1.getLast? = some t2 →
            (t2.1 = p2.1 → t2.2 ≠ p2.2 →
              s'.chain = setLast l1 (t2.1, t2.2 + sgn (p2.2 - t2.2)) ∧
              (p2.2 - (t2.2 + sgn (p2.2 - t2.2))).natAbs =
                (p2.2 - t2.2).natAbs - 1) ∧
            (t2.2 = p2.2 → t2.1 ≠ p2.1 →
              s'.chain = setLast l1 (t2.1 + sgn (p2.1 - t2.1), t2.2) ∧
              (p2.1 - (t2.1 + sgn (p2.1 - t2.1))).natAbs =
                (p2.1 - t2.1).natAbs - 1)) := by
  rw [Snake.update, if_neg (by simp [hlost])] at hupd
  constructor
  · intro hst
    rw [if_pos (by rw [update_head_stomach]; exact hst)] at hupd
    have hs' := Option.some_inj.mp hupd
    rw [← hs']
    refine ⟨by rw [update_head_stomach], rfl, ?_, ?_⟩
    · intro hmd
      show (s.update_head.chain).length = s.len
      rw [update_head_eq]
      simp [Snake.chain, Snake.len, hmd]
    · intro hmd
      show (s.update_head.chain).length = s.len + 1
      rw [update_head_eq]
      simp only [Snake.chain, Snake.len]
      rw [if_neg hmd]
      simp
  · intro hst
    rw [if_neg (by rw [update_head_stomach]; omega)] at hupd
    intro p t hp ht
    cases hts : tailStep s.update_head.chain with
    | none => rw [hts] at hupd; exact absurd hupd (by simp)
    | some l' =>
      rw [hts] at hupd
      have hchain : s'.chain = l' := by
        have heq : s.update_head.chain = s.update_head.head :: s.update_head.rest := rfl
        rw [heq] at hts
        obtain ⟨r', hr'⟩ := tailStep_head hts
        subst hr'
        simp only at hupd
        rw [← Option.some_inj.mp hupd]
        rfl
      rw [tailStep, hp, ht] at hts
      simp only at hts
      refine ⟨if t = p then back_tail s.update_head.chain else s.update_head.chain,
        ⟨fun h => by rw [if_pos h], fun h => by rw [if_neg h]⟩, ?_⟩
      intro p2 t2 hp2 ht2
      rw [hp2, ht2] at hts
      simp only at hts
      constructor
      · intro h1 h2
        rw [if_pos h1, if_neg h2] at hts
        refine ⟨by rw [hchain, ← Option.some_inj.mp hts], ?_⟩
        have : p2.2 - (t2.2 + sgn (p2.2 - t2.2)) = (p2.2 - t2.2) - sgn (p2.2 - t2.2) := by ring
        rw [this]
        exact sgn_step (by omega)
      · intro h1 h2
        rw [if_neg (by omega), if_pos h1] at hts
        refine ⟨by rw [hchain, ← Option.some_inj.mp hts], ?_⟩
        have : p2.1 - (t2.1 + sgn (p2.1 - t2.1)) = (p2.1 - t2.1) - sgn (p2.1 - t2.1) := by ring
        rw [this]
        exact sgn_step (by omega)

/-- A digesting snake, `stomach = 3`, going straight (C2 witness). -/
def wSnakeDigest : Snake :=
  { id := 1, color := (0, 0, 0), head := (5, 5), rest := [(5, 7)]
    direction := Move.Up, moving := Move.Up, has_lost := false
    stomach := 3, boost := false }

/-- An empty-stomach snake, tail two units behind (C2 witness). -/
def wSnakeFollow : Snake :=
  { id := 1, color := (0, 0, 0), head := (2, 2), rest := [(2, 4)]
    direction := Move.Up, moving := Move.Up, has_lost := false
    stomach := 0, boost := false }

theorem update_tail_spec_witness :
    (Snake.update wSnakeDigest).map Snake.len = some 2 ∧
    (Snake.update wSnakeDigest).map Snake.stomach = some 2 ∧
    (Snake.update wSnakeFollow).map Snake.chain = some [(2, 1), (2, 3)] := by
  cases hu : Snake.update wSnakeDigest with
  | none => exact absurd hu (by decide)
  | some s' =>
    cases hv : Snake.update wSnakeFollow with
    | none => exact absurd hv (by decide)
    | some s2 =>
      have hA := (update_tail_spec wSnakeDigest s' rfl hu).1 (by decide)
      have hB := (update_tail_spec wSnakeFollow s2 rfl hv).2 rfl (2, 1) (2, 4)
        (by decide) (by decide)
      obtain ⟨l1, hl1, hmove⟩ := hB
      have hl1eq : l1 = (Snake.update_head wSnakeFollow).chain := hl1.2 (by decide)
      subst hl1eq
      have := (hmove (2, 1) (2, 4) (by decide) (by decide)).1 rfl (by decide)
      refine ⟨?_, ?_, ?_⟩
      · show some s'.len = some 2
        rw [hA.2.2.1 rfl]
        decide
      · show some s'.stomach = some 2
        rw [hA.1]
        decide
      · show some s2.chain = some [(2, 1), (2, 3)]
        rw [this.1]
        decide

/-- Two consecutive nodes share at least one coordinate (the segment
between them is not diagonal). -/
abbrev sharesAxis (a b : Pos) : Prop :=
  a.1 = b.1 ∨ a.2 = b.2

/-- The claim's wording: two consecutive nodes share exactly one
coordinate (a non-degenerate horizontal or vertical segment). -/
abbrev exactlyOneAxis (a b : Pos) : Prop :=
  (a.1 = b.1 ∧ a.2 ≠ b.2) ∨ (a.2 = b.2 ∧ a.1 ≠ b.1)

/-- No segment of the chain is diagonal. -/
abbrev noDiagonal (l : List Pos) : Prop :=
  l.Chain' sharesAxis

/-- Every segment of the chain shares exactly one coordinate (the claim's
phrasing of the alignment invariant). -/
abbrev alignedExactlyOne (l : List Pos) : Prop :=
  l.Chain' exactlyOneAxis

/-- The head-to-neck segment is aligned with the snake's committed
`direction` (vertical `direction` over a vertical first segment,
horizontal over horizontal). -/
def headAligned (s : Snake) : Prop :=
  match s.rest with
  | [] => True
  | n1 :: _ =>
    match s.direction with
    | Move.Up => n1.1 = s.head.1
    | Move.Down => n1.1 = s.head.1
    | Move.Left => n1.2 = s.head.2
    | Move.Right => n1.2 = s.head.2

theorem shift_up (p : Pos) : Move.Up.shift p = (p.1, p.2 - 1) := rfl

theorem shift_down (p : Pos) : Move.Down.shift p = (p.1, p.2 + 1) := rfl

theorem shift_left (p : Pos) : Move.Left.shift p = (p.1 - 1, p.2) := rfl

theorem shift_right (p : Pos) : Move.Right.shift p = (p.1 + 1, p.2) := rfl

/-- The tail phase never creates a diagonal segment. -/
theorem tailStep_noDiagonal {l l' : List Pos} (hnd : noDiagonal l)
    (h : tailStep l = some l') : noDiagonal l' := by
  unfold tailStep at h
  cases hp : get_position_of_node_before_tail l with
  | none => rw [hp] at h; exact absurd h (by simp)
  | some p =>
    cases ht : l.getLast? with
    | none => rw [hp, ht] at h; exact absurd h (by simp)
    | some t =>
      rw [hp, ht] at h
      simp only at h
      set l1 := if t = p then back_tail l else l with hl1
      have hnd1 : noDiagonal l1 := by
        rw [hl1]
        by_cases htp : t = p
        · rw [if_pos htp]
          cases l with
          | nil => exact hnd
          | cons a l0 =>
            cases l0 with
            | nil => exact hnd
            | cons b l0' => exact hnd.init
        · rw [if_neg htp]; exact hnd
      cases hp2 : get_position_of_node_before_tail l1 with
      | none => rw [hp2] at h; exact absurd h (by simp)
      | some p2 =>
        cases ht2 : l1.getLast? with
        | none => rw [hp2, ht2] at h; exact absurd h (by simp)
        | some t2 =>
          rw [hp2, ht2] at h
          simp only at h
          have hlen : 2 ≤ l1.length := get_position_of_node_before_tail_isSome hp2
          have hpre : l1.dropLast.getLast? = some p2 := by
            rw [get_position_of_node_before_tail_eq, if_neg (by omega)] at hp2
            exact hp2
          have happ : ∀ v : Pos, sharesAxis p2 v → noDiagonal (setLast l1 v) := by
            intro v hrel
            rw [setLast]
            refine List.chain'_append.mpr ⟨hnd1.init, List.chain'_singleton v, ?_⟩
            intro x hx y hy
            rw [hpre] at hx
            simp at hx hy
            rw [← hx, ← hy]
            exact hrel
          by_cases h1 : t2.1 = p2.1
          · rw [if_pos h1] at h
            by_cases h2 : t2.2 = p2.2
            · rw [if_pos h2] at h; exact absurd h (by simp)
            · rw [if_neg h2] at h
              rw [← Option.some_inj.mp h]
              exact happ _ (Or.inl h1.symm)
          · rw [if_neg h1] at h
            by_cases h2 : t2.2 = p2.2
            · rw [if_pos h2] at h
              rw [← Option.some_inj.mp h]
              exact happ _ (Or.inr h2.symm)
            · rw [if_neg h2] at h
              rw [← Option.some_inj.mp h]
              exact hnd1

/-- The head phase never creates a diagonal segment, provided the first
segment is aligned with `direction`. -/
theorem update_head_noDiagonal (s : Snake) (hnd : noDiagonal s.chain)
    (hha : headAligned s) : noDiagonal s.update_head.chain := by
  rw [update_head_eq]
  show List.Chain' sharesAxis
    (s.moving.shift s.head :: if s.moving = s.direction then s.rest else s.head :: s.rest)
  by_cases hmd : s.moving = s.direction
  · rw [if_pos hmd]
    cases hr : s.rest with
    | nil => exact List.chain'_singleton _
    | cons n1 r1 =>
      rw [List.chain'_cons]
      constructor
      · unfold headAligned at hha
        rw [hr] at hha
        cases hd : s.direction <;> rw [hd] at hha <;> rw [hmd, hd] <;>
          simp only [shift_up, shift_down, shift_left, shift_right] <;>
          [exact Or.inl hha.symm; exact Or.inl hha.symm;
           exact Or.inr hha.symm; exact Or.inr hha.symm]
      · have := hnd
        rw [Snake.chain, hr] at this
        exact this.tail
  · rw [if_neg hmd]
    rw [List.chain'_cons]
    refine ⟨?_, hnd⟩
    cases s.moving <;>
      simp only [shift_up, shift_down, shift_left, shift_right] <;>
      [exact Or.inl rfl; exact Or.inl rfl; exact Or.inr rfl; exact Or.inr rfl]

/-- C3 (amended): a tick preserves the no-diagonal alignment invariant.
The amendment forced by `update_alignment_counterexample`: the invariant
is "consecutive nodes share at least one coordinate" (consecutive nodes
may coincide, e.g. right after a tail catch-up or at spawn), and the
head-to-neck segment must be aligned with the committed `direction`
(`headAligned`); without that compatibility, or in the strict
"exactly one shared coordinate" form, a single tick can break the
invariant for some values of `moving` and `direction`. -/
theorem update_noDiagonal (s s' : Snake) (hlost : s.has_lost = false)
    (hnd : noDiagonal s.chain) (hha : headAligned s)
    (hupd : s.update = some s') : noDiagonal s'.chain := by
  have hstep1 : noDiagonal s.update_head.chain := update_head_noDiagonal s hnd hha
  rw [Snake.update, if_neg (by simp [hlost])] at hupd
  by_cases hst : 0 < s.update_head.stomach
  · rw [if_pos hst] at hupd
    rw [← Option.some_inj.mp hupd]
    exact hstep1
  · rw [if_neg hst] at hupd
    cases hts : tailStep s.update_head.chain with
    | none => rw [hts] at hupd; exact absurd hupd (by simp)
    | some l' =>
      rw [hts] at hupd
      have hl' := tailStep_noDiagonal hstep1 hts
      have heq : s.update_head.chain = s.update_head.head :: s.update_head.rest := rfl
      rw [heq] at hts
      obtain ⟨r', hr'⟩ := tailStep_head hts
      subst hr'
      simp only at hupd
      rw [← Option.some_inj.mp hupd]
      exact hl'

/-- A snake whose first segment is horizontal while it moves vertically
(claim C3's unrestricted quantification allows it). -/
def wSnakeDiag : Snake :=
  { id := 1, color := (0, 0, 0), head := (5, 5), rest := [(4, 5)]
    direction := Move.Up, moving := Move.Up, has_lost := false
    stomach := 1, boost := false }

/-- A snake about to pull its tail onto the corner node. -/
def wSnakeCorner : Snake :=
  { id := 1, color := (0, 0, 0), head := (5, 2), rest := [(5, 5), (6, 5)]
    direction := Move.Up, moving := Move.Up, has_lost := false
    stomach := 0, boost := false }

/-- C3 counterexample: the claim as stated is false.  `wSnakeDiag`
satisfies the exactly-one-shared-coordinate invariant and is not lost,
yet one `Snake::update` (with `moving = direction = Up`, a value the
claim quantifies over) yields consecutive nodes differing on both axes.
Moreover, even under the direction-compatibility amendment
(`headAligned`), the strict "exactly one shared coordinate" reading
fails: `wSnakeCorner`'s tail steps onto the pre-tail node, leaving two
coinciding consecutive nodes. -/
theorem update_alignment_counterexample :
    alignedExactlyOne wSnakeDiag.chain ∧
    wSnakeDiag.has_lost = false ∧
    (Snake.update wSnakeDiag).map Snake.chain = some [(5, 4), (4, 5)] ∧
    ¬ noDiagonal [((5 : Int), (4 : Int)), ((4 : Int), (5 : Int))] ∧
    ¬ alignedExactlyOne [((5 : Int), (4 : Int)), ((4 : Int), (5 : Int))] ∧
    headAligned wSnakeCorner ∧
    alignedExactlyOne wSnakeCorner.chain ∧
    (Snake.update wSnakeCorner).map Snake.chain = some [(5, 1), (5, 5), (5, 5)] ∧
    ¬ alignedExactlyOne [((5 : Int), (1 : Int)), ((5 : Int), (5 : Int)), ((5 : Int), (5 : Int))] := by
  refine ⟨List.chain'_pair.mpr (by decide), rfl, by decide,
    fun hc => absurd (List.chain'_pair.mp hc) (by decide),
    fun hc => absurd (List.chain'_pair.mp hc) (by decide),
    by simp [headAligned, wSnakeCorner],
    List.chain'_cons.mpr ⟨by decide, List.chain'_pair.mpr (by decide)⟩,
    by decide,
    fun hc => absurd (List.chain'_pair.mp (List.chain'_cons.mp hc).2) (by decide)⟩

/-- A straight-moving aligned snake (C3 witness). -/
def wSnakeAligned : Snake :=
  { id := 1, color := (0, 0, 0), head := (3, 3), rest := [(3, 5)]
    direction := Move.Up, moving := Move.Up, has_lost := false
    stomach := 0, boost := false }

/-- The state of `wSnakeAligned` after one tick. -/
def wSnakeAlignedAfter : Snake :=
  { id := 1, color := (0, 0, 0), head := (3, 2), rest := [(3, 4)]
    direction := Move.Up, moving := Move.Up, has_lost := false
    stomach := 0, boost := false }

theorem update_noDiagonal_witness :
    Snake.update wSnakeAligned = some wSnakeAlignedAfter ∧
    noDiagonal wSnakeAlignedAfter.chain := by
  have h : Snake.update wSnakeAligned = some wSnakeAlignedAfter := by decide
  have hnd : noDiagonal wSnakeAligned.chain := List.chain'_pair.mpr (by decide)
  exact ⟨h, update_noDiagonal wSnakeAligned wSnakeAlignedAfter rfl hnd
    (by simp [headAligned, wSnakeAligned]) h⟩

/-- One iteration of the segment loop of `Snake::contains`: the vertical
check, then the horizontal check, each able to return `true` early. -/
def segmentHit (a b : Pos) (x y : Int) : Bool :=
  decide (a.1 = b.1 ∧ x = a.1 ∧ min a.2 b.2 ≤ y ∧ y ≤ max a.2 b.2) ||
  decide (a.2 = b.2 ∧ y = a.2 ∧ min a.1 b.1 ≤ x ∧ x ≤ max a.1 b.1)

/-- The segment loop of `Snake::contains` over the remaining nodes
(`node`, `next_node`, advance until `next_node` has no successor). -/
def segLoop : List Pos → Int → Int → Bool
  | a :: b :: rest, x, y => segmentHit a b x y || segLoop (b :: rest) x y
  | _, _, _ => false

/-- Embeds `Snake::contains` from `game_serv.rs`.  For the snake's own id the
loop starts one segment further (skipping the head-to-neck segment), and
a two-node own chain returns `false` outright; `none` models the `unwrap`
panic on a chain without a second node. -/
def Snake.contains (s : Snake) (x y : Int) (id : Nat) : Option Bool :=
  match s.rest with
  | [] => none
  | n1 :: rest2 =>
    if id = s.id then
      match rest2 with
      | [] => some false
      | _ :: _ => some (segLoop (n1 :: rest2) x y)
    else some (segLoop (s.head :: n1 :: rest2) x y)

/-- The claim's segment-containment predicate: the segment from `A` to
`B` contains `P` iff it is axis-aligned, `P` matches the fixed axis, and
`P`'s coordinate on the varying axis lies between `A`'s and `B`'s,
inclusive. -/
abbrev segContainsSpec (a b p : Pos) : Prop :=
  (a.1 = b.1 ∧ p.1 = a.1 ∧ min a.2 b.2 ≤ p.2 ∧ p.2 ≤ max a.2 b.2) ∨
  (a.2 = b.2 ∧ p.2 = a.2 ∧ min a.1 b.1 ≤ p.1 ∧ p.1 ≤ max a.1 b.1)

/-- The consecutive-node pairs (segments) of a chain. -/
def segPairs (l : List Pos) : List (Pos × Pos) :=
  l.zip l.tail

theorem segmentHit_iff (a b : Pos) (x y : Int) :
    segmentHit a b x y = true ↔ segContainsSpec a b (x, y) := by
  simp [segmentHit, segContainsSpec]

theorem segLoop_iff (l : List Pos) (x y : Int) :
    segLoop l x y = true ↔
      ∃ pr ∈ segPairs l, segContainsSpec pr.1 pr.2 (x, y) := by
  induction l with
  | nil => simp [segLoop, segPairs]
  | cons a l ih =>
    cases l with
    | nil => simp [segLoop, segPairs]
    | cons b t =>
      rw [show segLoop (a :: b :: t) x y =
            (segmentHit a b x y || segLoop (b :: t) x y) from rfl]
      rw [Bool.or_eq_true, segmentHit_iff, ih]
      rw [show segPairs (a :: b :: t) = (a, b) :: segPairs (b :: t) from rfl]
      simp

/-- C4: self-collision exemption of `Snake::contains`.  With the snake's
own id the head-to-neck segment is never eligible: an own chain of
exactly two nodes always yields `false`, an own chain of three or more
nodes reports exactly the points covered by the segments of the chain
minus its first segment (so a point lying only on the head-to-neck
segment yields `false`), and with any other id every segment of the
chain is eligible; segment containment is the inclusive axis-aligned
predicate `segContainsSpec`. -/
theorem contains_spec (s : Snake) (x y : Int) (id : Nat) :
    (id = s.id →
      (s.rest.length = 1 → s.contains x y id = some false) ∧
      (2 ≤ s.rest.length →
        (s.contains x y id = some true ↔
          ∃ pr ∈ segPairs s.rest, segContainsSpec pr.1 pr.2 (x, y))) ∧
      (s.rest ≠ [] →
        (∀ pr ∈ segPairs s.rest, ¬ segContainsSpec pr.1 pr.2 (x, y)) →
        s.contains x y id = some false)) ∧
    (id ≠ s.id → s.rest ≠ [] →
      (s.contains x y id = some true ↔
        ∃ pr ∈ segPairs s.chain, segContainsSpec pr.1 pr.2 (x, y))) := by
  constructor
  · intro hid
    refine ⟨?_, ?_, ?_⟩
    · intro hlen
      cases hr : s.rest with
      | nil => rw [hr] at hlen; simp at hlen
      | cons n1 rest2 =>
        cases rest2 with
        | nil =>
          rw [Snake.contains.eq_def, hr]
          dsimp only
          rw [if_pos hid]
        | cons m r => rw [hr] at hlen; simp at hlen
    · intro hlen
      cases hr : s.rest with
      | nil => rw [hr] at hlen; simp at hlen
      | cons n1 rest2 =>
        cases rest2 with
        | nil => rw [hr] at hlen; simp at hlen
        | cons m r =>
          rw [Snake.contains.eq_def, hr]
          dsimp only
          rw [if_pos hid, Option.some_inj, segLoop_iff]
    · intro hne hnot
      cases hr : s.rest with
      | nil => exact absurd hr hne
      | cons n1 rest2 =>
        cases rest2 with
        | nil =>
          rw [Snake.contains.eq_def, hr]
          dsimp only
          rw [if_pos hid]
        | cons m r =>
          rw [Snake.contains.eq_def, hr]
          dsimp only
          rw [if_pos hid]
          have hloop : segLoop (n1 :: m :: r) x y = false := by
            rw [← Bool.not_eq_true, segLoop_iff]
            rw [hr] at hnot
            simp only [not_exists]
            intro pr hc
            exact hnot pr hc.1 hc.2
          rw [hloop]
  · intro hid hne
    cases hr : s.rest with
    | nil => exact absurd hr hne
    | cons n1 rest2 =>
      rw [Snake.contains.eq_def, hr]
      dsimp only
      rw [if_neg hid, Option.some_inj, segLoop_iff,
        show s.chain = s.head :: s.rest from rfl, hr]

/-- An L-shaped snake: head `(0,0)`, corner `(0,5)`, tail `(5,5)`
(C4 witness). -/
def wSnakeL : Snake :=
  { id := 7, color := (0, 0, 0), head := (0, 0), rest := [(0, 5), (5, 5)]
    direction := Move.Up, moving := Move.Up, has_lost := false
    stomach := 0, boost := false }

/-- A freshly spawned two-node snake (C4 witness). -/
def wSnakeSpawn : Snake :=
  { id := 7, color := (0, 0, 0), head := (4, 4), rest := [(4, 4)]
    direction := Move.Up, moving := Move.Up, has_lost := false
    stomach := 10, boost := false }

theorem contains_spec_witness :
    Snake.contains wSnakeSpawn 4 4 7 = some false ∧
    Snake.contains wSnakeL 0 3 7 = some false ∧
    Snake.contains wSnakeL 3 5 7 = some true ∧
    Snake.contains wSnakeL 0 3 9 = some true := by
  refine ⟨((contains_spec wSnakeSpawn 4 4 7).1 rfl).1 rfl, ?_, ?_, ?_⟩
  · exact ((contains_spec wSnakeL 0 3 7).1 rfl).2.2 (by decide) (by decide)
  · exact (((contains_spec wSnakeL 3 5 7).1 rfl).2.1 (by decide)).mpr
      ⟨((0, 5), (5, 5)), by decide, by decide⟩
  · exact ((contains_spec wSnakeL 0 3 9).2 (by decide) (by decide)).mpr
      ⟨((0, 0), (0, 5)), by decide, by decide⟩

/-- Embeds `vec_as_n_bytes` from `snake-server/src/protocol.rs`: little-endian
bytes of an `i16`, byte `i` being `(data >> (i*8)) & 0xFF` with Rust's
arithmetic shift on `i16` (floor division `Int.fdiv` by `2^(8*i)`) and
bit-masking of the two's-complement pattern (`% 256` as `Int.emod`). -/
def vec_as_n_bytes (data : Int) (n : Nat) : List Nat :=
  (List.range n).map (fun i => (Int.fdiv data (2 ^ (8 * i)) % 256).toNat)

/-- Embeds `read_int_from_n_bytes` from `snake-client/src/protocol.rs` (the
server file defines the identical function): little-endian accumulation
`res += 256^i * buf[index + i]`; `none` models the explicit
out-of-bounds `panic!`. -/
def read_int_from_n_bytes (buf : List Nat) (index n : Nat) : Option Nat :=
  if buf.length < index + n then none
  else some ((List.range n).foldl (fun res i => res + 256 ^ i * buf.getD (index + i) 0) 0)

/-- Rust's `as i16` cast applied to a `u32` value (used by the client on
the result of `read_int_from_n_bytes`): keep the low 16 bits and
reinterpret as two's complement. -/
def u32_as_i16 (n : Nat) : Int :=
  if n % 65536 < 32768 then ((n % 65536 : Nat) : Int)
  else ((n % 65536 : Nat) : Int) - 65536

/-- C7: 16-bit signed little-endian round-trip: for every `i16` value
`x`, the client-side decode of the server-side 2-byte encoding of `x`,
reinterpreted as `i16`, is `x` again; in particular `-1` encodes to
`[0xFF, 0xFF]`. -/
theorem roundtrip_i16 (x : Int) (h1 : -32768 ≤ x) (h2 : x ≤ 32767) :
    (read_int_from_n_bytes (vec_as_n_bytes x 2) 0 2).map u32_as_i16 = some x ∧
    vec_as_n_bytes (-1) 2 = [255, 255] := by
  constructor
  · have hfd : ∀ k : Int, 0 < k → Int.fdiv x k = x / k := by
      intro k hk
      rw [Int.fdiv_eq_ediv]
      omega
    have hb : vec_as_n_bytes x 2 = [(x % 256).toNat, (x / 256 % 256).toNat] := by
      simp [vec_as_n_bytes, List.range_succ]
      rw [hfd 256 (by norm_num)]
    rw [hb, read_int_from_n_bytes, if_neg (by simp)]
    simp only [List.range_succ, List.range_zero, List.foldl_nil, List.foldl_cons,
      Option.map_some', Option.some_inj]
    norm_num [u32_as_i16]
    split <;> omega
  · decide

theorem roundtrip_i16_witness :
    (-32768 : Int) ≤ -1 ∧ (-1 : Int) ≤ 32767 ∧
    (read_int_from_n_bytes (vec_as_n_bytes (-1) 2) 0 2).map u32_as_i16 =
      some (-1) :=
  ⟨by decide, by decide, (roundtrip_i16 (-1) (by decide) (by decide)).1⟩

/-- Embeds the per-node loop of `snake_to_bytes` as `nodes_to_bytes` (two of `snake_to_bytes` (two
little-endian bytes for `x`, then two for `y`, head to tail). -/
def nodes_to_bytes : List Pos → List Nat
  | [] => []
  | p :: rest => vec_as_n_bytes p.1 2 ++ vec_as_n_bytes p.2 2 ++ nodes_to_bytes rest

/-- The per-snake body of `snake_to_bytes`: `id`, `has_lost` (0/1),
`stomach`, node count (`len as u8`), then the node coordinates. -/
def snakes_to_bytes_body : List Snake → List Nat
  | [] => []
  | s :: rest =>
      s.id :: (if s.has_lost then 1 else 0) :: s.stomach :: (s.len % 256) ::
        (nodes_to_bytes s.chain ++ snakes_to_bytes_body rest)

/-- Embeds `snake_to_bytes` from `snake-server/src/protocol.rs`: the snake count
(`len as u8`) followed by each snake's body. -/
def snake_to_bytes (list_snake : List Snake) : List Nat :=
  (list_snake.length % 256) :: snakes_to_bytes_body list_snake

/-- The snake of claim C6: id 1, color (2,3,4), head (10,20), one
successor at (10,20), not lost, empty stomach. -/
def wFrameSnake : Snake :=
  { id := 1, color := (2, 3, 4), head := (10, 20), rest := [(10, 20)]
    direction := Move.Right, moving := Move.Right, has_lost := false
    stomach := 0, boost := false }

/-- C6 counterexample: serializing the single claimed snake does not
yield the claimed byte sequence `[1,0,0,10,2,...]`, and the byte at
offset 3 is the stomach byte `0`, not the node count `2`. -/
theorem snake_to_bytes_counterexample :
    snake_to_bytes [wFrameSnake] ≠ [1, 0, 0, 10, 2, 10, 0, 20, 0, 10, 0, 20, 0] ∧
    (snake_to_bytes [wFrameSnake]).get? 3 ≠ some 2 := by
  constructor
  · decide
  · decide

/-- C6 (amended): the encoding is `[1,1,0,0,2,10,0,20,0,10,0,20,0]` —
snake-list count 1, then id 1, `has_lost` 0, `stomach` 0, node count 2
(at offset 4), then the two coinciding nodes' little-endian
coordinates. -/
theorem snake_to_bytes_frame :
    snake_to_bytes [wFrameSnake] = [1, 1, 0, 0, 2, 10, 0, 20, 0, 10, 0, 20, 0] ∧
    (snake_to_bytes [wFrameSnake]).get? 4 = some 2 := by
  constructor
  · decide
  · decide

/-- Embeds `DEV_NO_DEATH` from `main.rs`. -/
def DEV_NO_DEATH : Bool := false

/-- Embeds `FOOD_BY_APPLE` from `game_serv.rs`. -/
def FOOD_BY_APPLE : Nat := 4

/-- Embeds `N_FOOD_TYPES` from `game_serv.rs`. -/
def N_FOOD_TYPES : Nat := 2

/-- Embeds `MAX_FOOD` from `game_serv.rs`. -/
def MAX_FOOD : Nat := 20

/-- Rust's `as i16` cast applied to a `u16` value (`self.dimensions as
i16`, and the coordinates sampled in `Food::reset`). -/
def u16_as_i16 (n : Nat) : Int :=
  if n % 65536 < 32768 then ((n % 65536 : Nat) : Int)
  else ((n % 65536 : Nat) : Int) - 65536

/-- The player loop of `Game::check_tile`: the id of the first snake
whose body contains the point (inner `none` when no snake does); the
outer `none` models a panic inside `Snake::contains`. -/
def snakesCheck : List Snake → Int → Int → Nat → Option (Option Nat)
  | [], _, _, _ => some none
  | s :: rest, x, y, id =>
    match s.contains x y id with
    | none => none
    | some true => some (some s.id)
    | some false => snakesCheck rest x y id

/-- Embeds `Game::check_tile` from `game_serv.rs`: snakes first, then food, then
the wall test `x < 1 || y < 1 || x >= dimensions-1 || y >= dimensions-1`
(in `i16` arithmetic), else `Nothing`. -/
def Game.check_tile (g : Game) (x y : Int) (id : Nat) : Option TileType :=
  match snakesCheck g.players x y id with
  | none => none
  | some (some sid) => some (TileType.SnakeTile sid)
  | some none =>
    match g.food.find? (fun f => f.x == x && f.y == y) with
    | some f => some (TileType.FoodTile f.food_type)
    | none =>
      if x < 1 ∨ y < 1 ∨ u16_as_i16 g.dimensions - 1 ≤ x ∨
          u16_as_i16 g.dimensions - 1 ≤ y then
        some TileType.Wall
      else
        some TileType.Nothing

/-- The index loop of `Game::get_player`. -/
def get_player_loop : List Snake → Nat → Nat → Option Nat
  | [], _, _ => none
  | s :: rest, pid, i =>
    if s.id = pid then some i else get_player_loop rest pid (i + 1)

/-- Embeds `Game::get_player` from `game_serv.rs`: index of the first player
with the given id. -/
def Game.get_player (g : Game) (player_id : Nat) : Option Nat :=
  get_player_loop g.players player_id 0

/-- Embeds `Game::set_lost` from `game_serv.rs`; `none` models the `unwrap`
panic on an unknown player id. -/
def Game.set_lost (g : Game) (player_id : Nat) : Option Game :=
  match g.get_player player_id with
  | none => none
  | some index =>
    match g.players.get? index with
    | none => none
    | some s =>
      some { g with players := g.players.set index { s with has_lost := true } }

/-- Embeds `Game::killed` from `game_serv.rs`.  The `murderer` argument only
feeds the `println!` log, which is dropped, so it is not modelled. -/
def Game.killed (g : Game) (murdered : Nat) : Option Game :=
  if DEV_NO_DEATH then some g else g.set_lost murdered

/-- Embeds `Game::feed` from `game_serv.rs`: `stomach += food` in `u8`
arithmetic (`% 256`); `none` models the `unwrap` panic on an unknown
player id. -/
def Game.feed (g : Game) (player_id : Nat) (food : Nat) : Option Game :=
  match g.get_player player_id with
  | none => none
  | some index =>
    match g.players.get? index with
    | none => none
    | some s =>
      some { g with players :=
        g.players.set index { s with stomach := (s.stomach + food) % 256 } }

/-- Embeds `Food::reset` from `game_serv.rs`.  The two
`Uniform::from(2..dimensions-2)` samples are passed in explicitly
(`rx`, `ry`); `rand` guarantees `2 ≤ rx < dimensions - 2`, which the
theorems take as a hypothesis. -/
def Food.reset (f : Food) (rx ry : Nat) : Food :=
  { f with x := u16_as_i16 rx, y := u16_as_i16 ry }

/-- The scan-and-reset loop of `Game::reset_food`: reset the first food
sitting at `(x, y)` and stop. -/
def reset_food_loop : List Food → Int → Int → Nat → Nat → List Food
  | [], _, _, _, _ => []
  | f :: rest, x, y, rx, ry =>
    if f.x = x ∧ f.y = y then f.reset rx ry :: rest
    else f :: reset_food_loop rest x y rx ry

/-- Embeds `Game::reset_food` from `game_serv.rs`. -/
def Game.reset_food (g : Game) (x y : Int) (rx ry : Nat) : Game :=
  { g with food := reset_food_loop g.food x y rx ry }

/-- Embeds `Game::delete_food` from `game_serv.rs`: the index loop removes
every food at `(x, y)`. -/
def Game.delete_food (g : Game) (x y : Int) : Game :=
  { g with food := g.food.filter (fun f => !(f.x == x && f.y == y)) }

/-- The random samples `Game::update_snake` and `Food::reset` may draw
during one call, passed in explicitly. -/
structure Rng where
  resetX : Nat
  resetY : Nat
  coin : Nat
  newX : Nat
  newY : Nat
  newId : Nat

/-- The food-spawn block of `Game::update_snake`: below the food cap,
with probability one half (`coin = 1`), push a new food with random
interior coordinates and a random type; `none` models the
`food_id_to_type` panic. -/
def Game.spawn_food_chance (g : Game) (rng : Rng) : Option Game :=
  if g.food.length < MAX_FOOD then
    if rng.coin = 1 then
      match food_id_to_type rng.newId with
      | none => none
      | some ft =>
        some { g with food :=
          g.food ++ [Food.mk (u16_as_i16 rng.newX) (u16_as_i16 rng.newY) ft] }
    else some g
  else some g

/-- Embeds `Game::update_snake` from `game_serv.rs`: move the snake, classify
the tile under its new head, and resolve a kill or the food effects; the
returned `Bool` is `true` exactly when the function returns the boost
start instant (`Some(Instant::now())`, the Mango case). -/
def Game.update_snake (g : Game) (index : Nat) (rng : Rng) : Option (Game × Bool) :=
  match g.players.get? index with
  | none => none
  | some snake =>
    match snake.update with
    | none => none
    | some snake1 =>
      let g1 : Game := { g with players := g.players.set index snake1 }
      match g1.check_tile snake1.head.1 snake1.head.2 snake1.id with
      | none => none
      | some TileType.Nothing => some (g1, false)
      | some (TileType.SnakeTile _) =>
        match g1.killed snake1.id with
        | none => none
        | some g2 => some (g2, false)
      | some TileType.Wall =>
        match g1.killed snake1.id with
        | none => none
        | some g2 => some (g2, false)
      | some (TileType.FoodTile food_type) =>
        let eaten : Option Game :=
          match food_type with
          | FoodType.Apple =>
            match g1.feed snake1.id FOOD_BY_APPLE with
            | none => none
            | some g2 =>
              some (g2.reset_food snake1.head.1 snake1.head.2 rng.resetX rng.resetY)
          | FoodType.Mango =>
            match g1.players.get? index with
            | none => none
            | some sn =>
              some (({ g1 with
                players := g1.players.set index { sn with boost := true } }).delete_food
                  snake1.head.1 snake1.head.2)
        match eaten with
        | none => none
        | some g2 =>
          match g2.spawn_food_chance rng with
          | none => none
          | some g3 => some (g3, food_type == FoodType.Mango)

theorem contains_total {s : Snake} (h : s.rest ≠ []) (x y : Int) (id : Nat) :
    ∃ b, s.contains x y id = some b := by
  cases hr : s.rest with
  | nil => exact absurd hr h
  | cons n1 r2 =>
    rw [Snake.contains.eq_def, hr]
    dsimp only
    by_cases hid : id = s.id
    · rw [if_pos hid]
      cases r2 with
      | nil => exact ⟨false, rfl⟩
      | cons m r => exact ⟨_, rfl⟩
    · rw [if_neg hid]
      exact ⟨_, rfl⟩

theorem snakesCheck_cases (ps : List Snake) (x y : Int) (id : Nat)
    (hwf : ∀ s ∈ ps, s.rest ≠ []) :
    (∃ s ∈ ps, s.contains x y id = some true ∧
       snakesCheck ps x y id = some (some s.id)) ∨
    ((∀ s ∈ ps, s.contains x y id = some false) ∧
       snakesCheck ps x y id = some none) := by
  induction ps with
  | nil => exact Or.inr ⟨by simp, rfl⟩
  | cons s rest ih =>
    have hunf : snakesCheck (s :: rest) x y id =
        (match s.contains x y id with
         | none => none
         | some true => some (some s.id)
         | some false => snakesCheck rest x y id) := rfl
    obtain ⟨b, hb⟩ := contains_total (hwf s (by simp)) x y id
    cases b with
    | true =>
      exact Or.inl ⟨s, by simp, hb, by rw [hunf, hb]⟩
    | false =>
      rcases ih (fun t ht => hwf t (by simp [ht])) with
        ⟨t, htmem, htc, hsc⟩ | ⟨hall, hsc⟩
      · exact Or.inl ⟨t, by simp [htmem], htc, by rw [hunf, hb]; exact hsc⟩
      · refine Or.inr ⟨?_, by rw [hunf, hb]; exact hsc⟩
        intro t ht
        rcases List.mem_cons.mp ht with h1 | h1
        · rw [h1]; exact hb
        · exact hall t h1

theorem u16_as_i16_small {n : Nat} (h : n ≤ 32767) : u16_as_i16 n = n := by
  unfold u16_as_i16
  rw [Nat.mod_eq_of_lt (by omega), if_pos (by omega)]

/-- C5 (amended): `check_tile` classifies with precedence
Snake > Food > Wall > Empty: `SnakeTile` of the first containing snake
if any snake's body contains the point, else `FoodTile` with the food's
type for a food sitting at `(x, y)`, else `Wall` exactly when
`x < 1 ∨ y < 1 ∨ dimensions - 1 ≤ x ∨ dimensions - 1 ≤ y` (on or beyond
the outer ring — not only on the ring itself, which is the amendment
forced by `check_tile_counterexample`), else `Nothing`. -/
theorem check_tile_spec (g : Game) (x y : Int) (id : Nat)
    (hwf : ∀ s ∈ g.players, s.rest ≠ []) (hdim : g.dimensions ≤ 32767) :
    ∃ t, g.check_tile x y id = some t ∧
      ((∃ s ∈ g.players, s.contains x y id = some true) →
        ∃ s ∈ g.players, s.contains x y id = some true ∧
          t = TileType.SnakeTile s.id) ∧
      ((∀ s ∈ g.players, s.contains x y id = some false) →
        (∀ f, g.food.find? (fun f => f.x == x && f.y == y) = some f →
          t = TileType.FoodTile f.food_type) ∧
        ((∀ f ∈ g.food, ¬(f.x = x ∧ f.y = y)) →
          t = if x < 1 ∨ y < 1 ∨ (g.dimensions : Int) - 1 ≤ x ∨
                (g.dimensions : Int) - 1 ≤ y
              then TileType.Wall else TileType.Nothing)) := by
  rcases snakesCheck_cases g.players x y id hwf with
    ⟨s, hmem, hc, hsc⟩ | ⟨hall, hsc⟩
  · refine ⟨TileType.SnakeTile s.id, ?_, ?_, ?_⟩
    · unfold Game.check_tile
      rw [hsc]
    · intro _
      exact ⟨s, hmem, hc, rfl⟩
    · intro hallc
      exact absurd hc (by rw [hallc s hmem]; simp)
  · cases hf : g.food.find? (fun f => f.x == x && f.y == y) with
    | some f =>
      refine ⟨TileType.FoodTile f.food_type, ?_, ?_, ?_⟩
      · unfold Game.check_tile
        rw [hsc, hf]
      · rintro ⟨s, hmem, hcs⟩
        exact absurd hcs (by rw [hall s hmem]; simp)
      · intro _
        constructor
        · intro f' hf'
          injection hf' with h
          rw [h]
        · intro hnone
          exfalso
          have hpf := List.find?_some hf
          have hmf := List.mem_of_find?_eq_some hf
          simp only [Bool.and_eq_true, beq_iff_eq] at hpf
          exact hnone f hmf ⟨hpf.1, hpf.2⟩
    | none =>
      refine ⟨if x < 1 ∨ y < 1 ∨ (g.dimensions : Int) - 1 ≤ x ∨
                (g.dimensions : Int) - 1 ≤ y
              then TileType.Wall else TileType.Nothing, ?_, ?_, ?_⟩
      · unfold Game.check_tile
        rw [hsc, hf, u16_as_i16_small hdim]
        show (if x < 1 ∨ y < 1 ∨ (g.dimensions : Int) - 1 ≤ x ∨
                (g.dimensions : Int) - 1 ≤ y
              then some TileType.Wall else some TileType.Nothing) =
          some (if x < 1 ∨ y < 1 ∨ (g.dimensions : Int) - 1 ≤ x ∨
                  (g.dimensions : Int) - 1 ≤ y
                then TileType.Wall else TileType.Nothing)
        split <;> rfl
      · rintro ⟨s, hmem, hcs⟩
        exact absurd hcs (by rw [hall s hmem]; simp)
      · intro _
        refine ⟨fun f' hf' => ?_, fun _ => rfl⟩
        exact Option.noConfusion hf'

/-- An empty 10×10 game (C5 counterexample). -/
def wGameEmpty : Game :=
  { dimensions := 10, food := [], waiting := false, period := 0
    progress := 0, players := [] }

/-- C5 counterexample: at `(-5, 5)` — no snake, no food, and not on the
outer ring (coordinate `0` or `dimensions - 1` on either axis) — the
claim requires `Nothing`, but `check_tile` returns `Wall`: the code's
wall test fires on every coordinate on or beyond the ring. -/
theorem check_tile_counterexample :
    Game.check_tile wGameEmpty (-5) 5 1 = some TileType.Wall ∧
    ¬((-5 : Int) = 0 ∨ (-5 : Int) = 10 - 1 ∨ (5 : Int) = 0 ∨
      (5 : Int) = 10 - 1) := by
  constructor
  · decide
  · decide

/-- An L-shaped snake with id 7 (C5 witness). -/
def wSnakeWall : Snake :=
  { id := 7, color := (0, 0, 0), head := (3, 2), rest := [(3, 5), (6, 5)]
    direction := Move.Up, moving := Move.Up, has_lost := false
    stomach := 0, boost := false }

/-- A 10×10 game with one snake and one apple (C5 witness). -/
def wGameTiles : Game :=
  { dimensions := 10, food := [Food.mk 4 4 FoodType.Apple], waiting := false
    period := 0, progress := 0, players := [wSnakeWall] }

theorem check_tile_spec_witness :
    Game.check_tile wGameTiles 3 3 1 = some (TileType.SnakeTile 7) ∧
    Game.check_tile wGameTiles 4 4 1 = some (TileType.FoodTile FoodType.Apple) ∧
    Game.check_tile wGameTiles 0 7 1 = some TileType.Wall ∧
    Game.check_tile wGameTiles 7 7 1 = some TileType.Nothing := by
  obtain ⟨t1, ht1, hs1, _⟩ := check_tile_spec wGameTiles 3 3 1 (by decide) (by decide)
  obtain ⟨t2, ht2, _, hr2⟩ := check_tile_spec wGameTiles 4 4 1 (by decide) (by decide)
  obtain ⟨t3, ht3, _, hr3⟩ := check_tile_spec wGameTiles 0 7 1 (by decide) (by decide)
  obtain ⟨t4, ht4, _, hr4⟩ := check_tile_spec wGameTiles 7 7 1 (by decide) (by decide)
  refine ⟨?_, ?_, ?_, ?_⟩
  · obtain ⟨s, hmem, _, hts⟩ := hs1 ⟨wSnakeWall, by decide, by decide⟩
    have hsw : s = wSnakeWall := by
      rcases List.mem_singleton.mp hmem with h
      exact h
    rw [ht1, hts, hsw]
    rfl
  · have := (hr2 (by decide)).1 (Food.mk 4 4 FoodType.Apple) (by decide)
    rw [ht2, this]
  · have := (hr3 (by decide)).2 (by decide)
    rw [ht3, this]
    decide
  · have := (hr4 (by decide)).2 (by decide)
    rw [ht4, this]
    decide

theorem get?_lt {α : Type} {l : List α} {i : Nat} {x : α}
    (h : l.get? i = some x) : i < l.length :=
  (List.get?_eq_some.mp h).choose

theorem reset_food_loop_decomp {l : List Food} {x y : Int} {f : Food} (rx ry : Nat)
    (h : l.find? (fun f => f.x == x && f.y == y) = some f) :
    ∃ pre post, l = pre ++ f :: post ∧
      (∀ f' ∈ pre, ¬(f'.x = x ∧ f'.y = y)) ∧ f.x = x ∧ f.y = y ∧
      reset_food_loop l x y rx ry = pre ++ f.reset rx ry :: post := by
  induction l with
  | nil => exact absurd h (by simp)
  | cons a l ih =>
    have hcons : List.find? (fun f : Food => f.x == x && f.y == y) (a :: l) =
        (match (a.x == x && a.y == y : Bool) with
         | true => some a
         | false => List.find? (fun f : Food => f.x == x && f.y == y) l) := rfl
    by_cases hp : a.x = x ∧ a.y = y
    · rw [hcons, show ((a.x == x && a.y == y : Bool)) = true from by
        simp [hp.1, hp.2]] at h
      injection h with h
      subst h
      refine ⟨[], l, by simp, by simp, hp.1, hp.2, ?_⟩
      have hrf : reset_food_loop (a :: l) x y rx ry =
          if a.x = x ∧ a.y = y then a.reset rx ry :: l
          else a :: reset_food_loop l x y rx ry := rfl
      rw [hrf, if_pos hp]
      simp
    · have hpa : ((a.x == x && a.y == y : Bool)) = false := by
        rw [Bool.and_eq_false_iff]
        by_cases h1 : a.x = x
        · refine Or.inr ?_
          simp only [beq_eq_false_iff_ne, ne_eq]
          intro h2
          exact hp ⟨h1, h2⟩
        · refine Or.inl ?_
          simp only [beq_eq_false_iff_ne, ne_eq]
          exact h1
      rw [hcons, hpa] at h
      obtain ⟨pre, post, hl, hpre, hfx, hfy, hreset⟩ := ih h
      refine ⟨a :: pre, post, by rw [hl]; rfl, ?_, hfx, hfy, ?_⟩
      · intro f' hf'
        rcases List.mem_cons.mp hf' with h1 | h1
        · rw [h1]; exact hp
        · exact hpre f' h1
      · have : reset_food_loop (a :: l) x y rx ry =
            if a.x = x ∧ a.y = y then a.reset rx ry :: l
            else a :: reset_food_loop l x y rx ry := rfl
        rw [this, if_neg hp, hreset]
        rfl

theorem spawn_food_chance_spec {g g' : Game} {rng : Rng}
    (h : g.spawn_food_chance rng = some g') :
    ∃ sp, g'.food = g.food ++ sp ∧ sp.length ≤ 1 ∧ g'.players = g.players := by
  unfold Game.spawn_food_chance at h
  by_cases h1 : g.food.length < MAX_FOOD
  · rw [if_pos h1] at h
    by_cases h2 : rng.coin = 1
    · rw [if_pos h2] at h
      cases hft : food_id_to_type rng.newId with
      | none => rw [hft] at h; exact absurd h (by simp)
      | some ft =>
        rw [hft] at h
        simp only at h
        refine ⟨[Food.mk (u16_as_i16 rng.newX) (u16_as_i16 rng.newY) ft],
          ?_, by simp, ?_⟩ <;> rw [← Option.some_inj.mp h]
    · rw [if_neg h2] at h
      exact ⟨[], by rw [← Option.some_inj.mp h]; simp, by simp,
        by rw [← Option.some_inj.mp h]⟩
  · rw [if_neg h1] at h
    exact ⟨[], by rw [← Option.some_inj.mp h]; simp, by simp,
      by rw [← Option.some_inj.mp h]⟩

theorem check_tile_food_inv {g : Game} {x y : Int} {id : Nat} {ft : FoodType}
    (h : g.check_tile x y id = some (TileType.FoodTile ft)) :
    ∃ f, g.food.find? (fun f => f.x == x && f.y == y) = some f ∧
      f.food_type = ft := by
  unfold Game.check_tile at h
  cases hsc : snakesCheck g.players x y id with
  | none => rw [hsc] at h; exact absurd h (by simp)
  | some o =>
    cases o with
    | some sid => rw [hsc] at h; simp at h
    | none =>
      rw [hsc] at h
      dsimp only at h
      cases hf : g.food.find? (fun f => f.x == x && f.y == y) with
      | some f =>
        rw [hf] at h
        dsimp only at h
        injection h with h
        injection h with h
        exact ⟨f, rfl, h⟩
      | none =>
        rw [hf] at h
        dsimp only at h
        split at h <;> simp at h

/-- C8 (amended): feeding effects of `Game::update_snake`.  When the
updated snake's head lands on an Apple the eater's stomach grows by 4 in
`u8` arithmetic (`% 256`; by exactly 4 whenever `stomach + 4 ≤ 255`,
the amendment forced by `update_snake_stomach_counterexample`), the
Apple is kept at its place in the food list but relocated to the
sampled interior coordinates, which lie in `[2, dimensions-3]`; when it
lands on a Mango, that food item is removed, the eater's boost flag is
set, and the call returns the boost start instant (`boosted = true`).
In both cases at most one random extra food may additionally spawn at
the end of the list, and no other snake changes. -/
theorem update_snake_feeding
    (g gm g' : Game) (index : Nat) (rng : Rng) (s s1 : Snake) (boosted : Bool)
    (hs : g.players.get? index = some s)
    (hupd : s.update = some s1)
    (hgm : gm = { g with players := g.players.set index s1 })
    (hid : gm.get_player s1.id = some index)
    (hdim : g.dimensions ≤ 32767)
    (hrx1 : 2 ≤ rng.resetX) (hrx2 : rng.resetX ≤ g.dimensions - 3)
    (hry1 : 2 ≤ rng.resetY) (hry2 : rng.resetY ≤ g.dimensions - 3)
    (hrun : Game.update_snake g index rng = some (g', boosted)) :
    (gm.check_tile s1.head.1 s1.head.2 s1.id =
        some (TileType.FoodTile FoodType.Apple) →
      boosted = false ∧
      g'.players.get? index =
        some { s1 with stomach := (s1.stomach + FOOD_BY_APPLE) % 256 } ∧
      (s1.stomach + FOOD_BY_APPLE ≤ 255 →
        g'.players.get? index =
          some { s1 with stomach := s1.stomach + FOOD_BY_APPLE }) ∧
      (∀ j, j ≠ index → g'.players.get? j = g.players.get? j) ∧
      (∃ pre f post sp,
        gm.food = pre ++ f :: post ∧
        (∀ f' ∈ pre, ¬(f'.x = s1.head.1 ∧ f'.y = s1.head.2)) ∧
        f.x = s1.head.1 ∧ f.y = s1.head.2 ∧ f.food_type = FoodType.Apple ∧
        g'.food = (pre ++
          { f with x := (rng.resetX : Int), y := (rng.resetY : Int) } :: post) ++ sp ∧
        sp.length ≤ 1 ∧
        2 ≤ (rng.resetX : Int) ∧ (rng.resetX : Int) ≤ (g.dimensions : Int) - 3 ∧
        2 ≤ (rng.resetY : Int) ∧ (rng.resetY : Int) ≤ (g.dimensions : Int) - 3)) ∧
    (gm.check_tile s1.head.1 s1.head.2 s1.id =
        some (TileType.FoodTile FoodType.Mango) →
      boosted = true ∧
      g'.players.get? index = some { s1 with boost := true } ∧
      (∀ j, j ≠ index → g'.players.get? j = g.players.get? j) ∧
      ∃ sp, g'.food =
          gm.food.filter (fun f => !(f.x == s1.head.1 && f.y == s1.head.2)) ++ sp ∧
        sp.length ≤ 1) := by
  subst hgm
  have hlen : index < g.players.length := get?_lt hs
  unfold Game.update_snake at hrun
  rw [hs] at hrun
  dsimp only at hrun
  rw [hupd] at hrun
  dsimp only at hrun
  constructor
  · intro ha
    rw [ha] at hrun
    dsimp only at hrun
    have hfeed : Game.feed { g with players := g.players.set index s1 } s1.id
        FOOD_BY_APPLE =
        some { g with players := ((g.players.set index s1).set index
          { s1 with stomach := (s1.stomach + FOOD_BY_APPLE) % 256 }) } := by
      unfold Game.feed
      rw [hid]
      dsimp only
      rw [List.get?_set_eq_of_lt s1 hlen]
    rw [hfeed] at hrun
    dsimp only at hrun
    cases hsp : Game.spawn_food_chance
        (Game.reset_food
          { g with players := ((g.players.set index s1).set index
            { s1 with stomach := (s1.stomach + FOOD_BY_APPLE) % 256 }) }
          s1.head.1 s1.head.2 rng.resetX rng.resetY) rng with
    | none => rw [hsp] at hrun; exact absurd hrun (by simp)
    | some g3 =>
      rw [hsp] at hrun
      dsimp only at hrun
      have hg3 : g3 = g' := congrArg Prod.fst (Option.some_inj.mp hrun)
      have hbo : boosted = false := (congrArg Prod.snd (Option.some_inj.mp hrun)).symm
      obtain ⟨sp, hfood3, hsplen, hpl3⟩ := spawn_food_chance_spec hsp
      have hplayers : g'.players =
          g.players.set index { s1 with stomach := (s1.stomach + FOOD_BY_APPLE) % 256 } := by
        rw [← hg3, hpl3]
        exact List.set_set _ _ _ _
      refine ⟨hbo, ?_, ?_, ?_, ?_⟩
      · rw [hplayers]
        exact List.get?_set_eq_of_lt _ hlen
      · intro hle
        rw [hplayers, Nat.mod_eq_of_lt (by omega)]
        exact List.get?_set_eq_of_lt _ hlen
      · intro j hj
        rw [hplayers]
        exact List.get?_set_ne _ _ (fun h => hj h.symm)
      · obtain ⟨f, hfind, hft⟩ := check_tile_food_inv ha
        obtain ⟨pre, post, hdecomp, hpre, hfx, hfy, hreset⟩ :=
          reset_food_loop_decomp rng.resetX rng.resetY hfind
        refine ⟨pre, f, post, sp, hdecomp, hpre, hfx, hfy, hft, ?_, hsplen,
          by omega, by omega, by omega, by omega⟩
        rw [← hg3, hfood3]
        have hfr : Food.reset f rng.resetX rng.resetY =
            { f with x := (rng.resetX : Int), y := (rng.resetY : Int) } := by
          unfold Food.reset
          rw [u16_as_i16_small (by omega), u16_as_i16_small (by omega)]
        rw [show (Game.reset_food
            { g with players := ((g.players.set index s1).set index
              { s1 with stomach := (s1.stomach + FOOD_BY_APPLE) % 256 }) }
            s1.head.1 s1.head.2 rng.resetX rng.resetY).food =
          reset_food_loop g.food s1.head.1 s1.head.2 rng.resetX rng.resetY from rfl]
        rw [hreset, hfr]
  · intro hm
    rw [hm] at hrun
    dsimp only at hrun
    rw [show ({ g with players := g.players.set index s1 } : Game).players.get? index =
        (g.players.set index s1).get? index from rfl] at hrun
    rw [List.get?_set_eq_of_lt s1 hlen] at hrun
    dsimp only at hrun
    cases hsp : Game.spawn_food_chance
        (Game.delete_food
          { g with players := ((g.players.set index s1).set index
            { s1 with boost := true }) }
          s1.head.1 s1.head.2) rng with
    | none => rw [hsp] at hrun; exact absurd hrun (by simp)
    | some g3 =>
      rw [hsp] at hrun
      dsimp only at hrun
      have hg3 : g3 = g' := congrArg Prod.fst (Option.some_inj.mp hrun)
      have hbo : boosted = true := (congrArg Prod.snd (Option.some_inj.mp hrun)).symm
      obtain ⟨sp, hfood3, hsplen, hpl3⟩ := spawn_food_chance_spec hsp
      have hplayers : g'.players =
          g.players.set index { s1 with boost := true } := by
        rw [← hg3, hpl3]
        exact List.set_set _ _ _ _
      refine ⟨hbo, ?_, ?_, ?_⟩
      · rw [hplayers]
        exact List.get?_set_eq_of_lt _ hlen
      · intro j hj
        rw [hplayers]
        exact List.get?_set_ne _ _ (fun h => hj h.symm)
      · refine ⟨sp, ?_, hsplen⟩
        rw [← hg3, hfood3]
        rfl

/-- A snake about to step onto an apple with a nearly full `u8` stomach
(C8 counterexample). -/
def wSnakeOverflow : Snake :=
  { id := 1, color := (0, 0, 0), head := (4, 5), rest := [(4, 7)]
    direction := Move.Up, moving := Move.Up, has_lost := false
    stomach := 253, boost := false }

/-- State of `wSnakeOverflow` after one `Snake::update` (digesting one unit). -/
def wSnakeOverflowMoved : Snake :=
  { id := 1, color := (0, 0, 0), head := (4, 4), rest := [(4, 7)]
    direction := Move.Up, moving := Move.Up, has_lost := false
    stomach := 252, boost := false }

/-- A 10×10 game with an apple under `wSnakeOverflow`'s next head
position. -/
def wGameOverflow : Game :=
  { dimensions := 10, food := [Food.mk 4 4 FoodType.Apple], waiting := false
    period := 0, progress := 0, players := [wSnakeOverflow] }

/-- Rng samples: relocation to `(5,5)`, no extra spawn (`coin = 0`). -/
def wRngZero : Rng :=
  { resetX := 5, resetY := 5, coin := 0, newX := 2, newY := 2, newId := 1 }

/-- C8 counterexample: the head lands on an Apple, but the stomach is
not increased by exactly 4: `stomach` is a `u8`, so from the pre-tick
value 253 (252 after the move's digestion) the `+ 4` wraps to 0. -/
theorem update_snake_stomach_counterexample :
    (wGameOverflow.players.get? 0).map Snake.stomach = some 253 ∧
    Snake.update wSnakeOverflow = some wSnakeOverflowMoved ∧
    Game.check_tile { wGameOverflow with players := [wSnakeOverflowMoved] } 4 4 1 =
      some (TileType.FoodTile FoodType.Apple) ∧
    (Game.update_snake wGameOverflow 0 wRngZero).map
      (fun pr => ((pr.1.players.get? 0).map Snake.stomach, pr.2)) =
      some (some 0, false) := by
  refine ⟨by decide, by decide, by decide, by decide⟩

/-- A snake about to step onto a food at `(4,4)` (C8 witness). -/
def wSnakeEater : Snake :=
  { id := 1, color := (0, 0, 0), head := (4, 5), rest := [(4, 7)]
    direction := Move.Up, moving := Move.Up, has_lost := false
    stomach := 5, boost := false }

/-- State of `wSnakeEater` after one `Snake::update`. -/
def wSnakeEaterMoved : Snake :=
  { id := 1, color := (0, 0, 0), head := (4, 4), rest := [(4, 7)]
    direction := Move.Up, moving := Move.Up, has_lost := false
    stomach := 4, boost := false }

/-- A 10×10 game with an apple at `(4,4)` (C8 witness). -/
def wGameApple : Game :=
  { dimensions := 10, food := [Food.mk 4 4 FoodType.Apple], waiting := false
    period := 0, progress := 0, players := [wSnakeEater] }

/-- A 10×10 game with a mango at `(4,4)` (C8 witness). -/
def wGameMango : Game :=
  { dimensions := 10, food := [Food.mk 4 4 FoodType.Mango], waiting := false
    period := 0, progress := 0, players := [wSnakeEater] }

/-- Rng samples: relocation to `(5,6)`, no extra spawn (`coin = 0`). -/
def wRngSpawnless : Rng :=
  { resetX := 5, resetY := 6, coin := 0, newX := 2, newY := 2, newId := 1 }

theorem update_snake_feeding_witness :
    (Game.update_snake wGameApple 0 wRngSpawnless).map
      (fun pr => ((pr.1.players.get? 0).map Snake.stomach, pr.2)) =
      some (some 8, false) ∧
    (Game.update_snake wGameMango 0 wRngSpawnless).map
      (fun pr => ((pr.1.players.get? 0).map Snake.boost, pr.2)) =
      some (some true, true) := by
  constructor
  · cases hrunA : Game.update_snake wGameApple 0 wRngSpawnless with
    | none =>
      have hA : (Game.update_snake wGameApple 0 wRngSpawnless).isSome = true := by
        decide
      rw [hrunA] at hA
      simp at hA
    | some pr =>
      obtain ⟨gA, bA⟩ := pr
      have H := update_snake_feeding wGameApple
        { wGameApple with players := wGameApple.players.set 0 wSnakeEaterMoved }
        gA 0 wRngSpawnless wSnakeEater wSnakeEaterMoved bA
        (by decide) (by decide) rfl (by decide) (by decide) (by decide)
        (by decide) (by decide) (by decide) hrunA
      have happle := H.1 (by decide)
      simp only [Option.map_some']
      rw [happle.2.1, happle.1]
      decide
  · cases hrunM : Game.update_snake wGameMango 0 wRngSpawnless with
    | none =>
      have hM : (Game.update_snake wGameMango 0 wRngSpawnless).isSome = true := by
        decide
      rw [hrunM] at hM
      simp at hM
    | some pr =>
      obtain ⟨gM, bM⟩ := pr
      have H := update_snake_feeding wGameMango
        { wGameMango with players := wGameMango.players.set 0 wSnakeEaterMoved }
        gM 0 wRngSpawnless wSnakeEater wSnakeEaterMoved bM
        (by decide) (by decide) rfl (by decide) (by decide) (by decide)
        (by decide) (by decide) (by decide) hrunM
      have hmango := H.2 (by decide)
      simp only [Option.map_some']
      rw [hmango.2.1, hmango.1]
      decide

end Snecc
